import Mathlib

/-!
Verification of the multi-engine OCR extraction subsystem of the
book-reader python server (`src/python-server/server.py`).

Shallow embedding conventions:
* Python floats (confidences, bounding-box coordinates, numpy float32
  arithmetic) are modelled as exact rationals `ℚ`.
* Python ints are `Int`; the request's float region values pass through
  `int(...)`, so the region is modelled by the resulting integers.
* Fallible endpoint paths are modelled with `Except` / explicit outcome
  types; the availability globals `PADDLEOCR_AVAILABLE` / `OCR_AVAILABLE`
  become `Bool` parameters.
-/

namespace BookReader

/-- Embeds `OCRTextRegion` (server.py): `text`, `bbox = [x, y, w, h]`,
`confidence` and the derived `confidence_tier`. -/
structure OCRTextRegion where
  text : String
  bbox : ℚ × ℚ × ℚ × ℚ
  confidence : ℚ
  confidence_tier : String
deriving Repr, DecidableEq

/-- Embeds `classify_confidence_tier` (server.py lines 1065-1079). -/
def classify_confidence_tier (confidence : ℚ) : String :=
  if confidence ≥ 0.60 then "high"
  else if confidence ≥ 0.30 then "medium"
  else "low"

/-- Embeds the result dict of `calculate_confidence_stats`. -/
structure ConfidenceStats where
  count : Nat
  min : ℚ
  max : ℚ
  avg : ℚ
  median : ℚ
  dist_high : Nat
  dist_medium : Nat
  dist_low : Nat
deriving Repr, DecidableEq

/-- Python `min` over a non-empty list (0 for the empty list, unreached). -/
def pyMin : List ℚ → ℚ
  | [] => 0
  | c :: rest => rest.foldl min c

/-- Python `max` over a non-empty list (0 for the empty list, unreached). -/
def pyMax : List ℚ → ℚ
  | [] => 0
  | c :: rest => rest.foldl max c

/-- Insert a value into a list sorted ascending, embedding one step of
Python `sorted`. -/
def insertSorted (c : ℚ) : List ℚ → List ℚ
  | [] => [c]
  | x :: xs => if c ≤ x then c :: x :: xs else x :: insertSorted c xs

/-- Embeds Python `sorted` on confidence lists (ascending). -/
def sortConf : List ℚ → List ℚ
  | [] => []
  | x :: xs => insertSorted x (sortConf xs)

/-- Embeds `calculate_confidence_stats` (server.py lines 1082-1113): empty
input yields all zeros; otherwise `count`/`min`/`max`/`avg`,
`median = sorted_conf[len(sorted_conf) // 2]`, and a tier distribution
whose buckets test `c >= 0.60`, `0.30 <= c < 0.60` and `0.15 <= c < 0.30`. -/
def calculate_confidence_stats (regions : List OCRTextRegion) : ConfidenceStats :=
  if regions = [] then
    { count := 0, min := 0, max := 0, avg := 0, median := 0
      dist_high := 0, dist_medium := 0, dist_low := 0 }
  else
    let confidences := regions.map (·.confidence)
    let sorted_conf := sortConf confidences
    { count := regions.length
      min := pyMin confidences
      max := pyMax confidences
      avg := confidences.sum / confidences.length
      median := sorted_conf.getD (sorted_conf.length / 2) 0
      dist_high := confidences.countP (fun c => decide ((0.60:ℚ) ≤ c))
      dist_medium := confidences.countP (fun c => decide ((0.30:ℚ) ≤ c ∧ c < 0.60))
      dist_low := confidences.countP (fun c => decide ((0.15:ℚ) ≤ c ∧ c < 0.30)) }

/-! ## Engine Router (resolution phase)

Embeds the identical resolution blocks at the top of `extract_manga_text`
(server.py lines 1445-1480) and `extract_manga_text_region` (lines
1604-1639): the requested name is lower-cased, aliases and unknown names
are remapped, then each canonical engine is checked for availability. -/

/-- Outcome of resolution: either an error message (the endpoint returns
`success = False` with that `error`), or the engine to run together with
the recorded `fallback_reason`. -/
abbrev ResolveOutcome := Except String (String × Option String)

/-- Embeds the engine-resolution block shared by both OCR endpoints,
taking the already lower-cased requested name and the two availability
flags (`PADDLEOCR_AVAILABLE`, `OCR_AVAILABLE`). The three sequential
`if` blocks of the source are mirrored as three sequential steps. -/
def resolve_engine (req : String) (pa oa : Bool) : ResolveOutcome :=
  let step1 : ResolveOutcome :=
    if req = "hybrid" ∨ req = "trocr" ∨ req = "easyocr" then
      if pa then .ok ("paddleocr", some (req ++ " not implemented; using paddleocr"))
      else if oa then .ok ("tesseract", some (req ++ " not implemented; using tesseract"))
      else .error "OCR not available. Install pytesseract or paddleocr."
    else if ¬(req = "tesseract" ∨ req = "paddleocr") then
      if pa then .ok ("paddleocr", some ("Unknown ocr_engine '" ++ req ++ "'; using paddleocr"))
      else if oa then .ok ("tesseract", some ("Unknown ocr_engine '" ++ req ++ "'; using tesseract"))
      else .error "OCR not available. Install pytesseract or paddleocr."
    else .ok (req, none)
  match step1 with
  | .error e => .error e
  | .ok (engine1, fb1) =>
    let step2 : ResolveOutcome :=
      if engine1 = "paddleocr" ∧ pa = false then
        if oa then .ok ("tesseract", some "PaddleOCR not available; using tesseract")
        else .error "OCR not available. PaddleOCR not installed and pytesseract unavailable."
      else .ok (engine1, fb1)
    match step2 with
    | .error e => .error e
    | .ok (engine2, fb2) =>
      if engine2 = "tesseract" ∧ oa = false then
        if pa then .ok ("paddleocr", some "Tesseract not available; using paddleocr")
        else .error "OCR not available. pytesseract is not installed."
      else .ok (engine2, fb2)

/-- Embeds `requested_engine = (request.ocr_engine or "tesseract").lower()`
followed by the resolution block. -/
def resolve_engine_request (ocr_engine : Option String) (pa oa : Bool) : ResolveOutcome :=
  let raw := match ocr_engine with
    | none => "tesseract"
    | some s => if s = "" then "tesseract" else s
  resolve_engine raw.toLower pa oa

/-- `mentionsCI sub s`: the fallback reasons of the source mix case (for
example `"PaddleOCR not available; using tesseract"`), so "the reason
names engine `sub`" is read case-insensitively: the lower-cased
characters of `sub` occur contiguously in the lower-cased characters
of `s`. -/
def mentionsCI (sub s : String) : Prop :=
  (sub.data.map Char.toLower) <:+: (s.data.map Char.toLower)

instance (sub s : String) : Decidable (mentionsCI sub s) :=
  inferInstanceAs (Decidable (_ <:+: _))

theorem mentionsCI_refl_append (a b : String) : mentionsCI a (a ++ b) := by
  refine List.IsPrefix.isInfix ?_
  simp [String.data_append]

theorem mentionsCI_append_right (a s t : String) (h : mentionsCI a t) :
    mentionsCI a (s ++ t) := by
  unfold mentionsCI at *
  simp only [String.data_append, List.map_append]
  exact h.trans (List.suffix_append _ _).isInfix

theorem mentionsCI_append_left (a s t : String) (h : mentionsCI a s) :
    mentionsCI a (s ++ t) := by
  unfold mentionsCI at *
  simp only [String.data_append, List.map_append]
  exact h.trans (List.prefix_append _ _).isInfix

theorem mentionsCI_refl (a : String) : mentionsCI a a :=
  List.infix_refl _

theorem resolve_engine_unknown_pa (req : String) (oa : Bool)
    (h1 : req ≠ "hybrid") (h2 : req ≠ "trocr") (h3 : req ≠ "easyocr")
    (h4 : req ≠ "tesseract") (h5 : req ≠ "paddleocr") :
    resolve_engine req true oa =
      .ok ("paddleocr", some ("Unknown ocr_engine '" ++ req ++ "'; using paddleocr")) := by
  unfold resolve_engine
  simp [h1, h2, h3, h4, h5]

theorem resolve_engine_unknown_oa (req : String)
    (h1 : req ≠ "hybrid") (h2 : req ≠ "trocr") (h3 : req ≠ "easyocr")
    (h4 : req ≠ "tesseract") (h5 : req ≠ "paddleocr") :
    resolve_engine req false true =
      .ok ("tesseract", some ("Unknown ocr_engine '" ++ req ++ "'; using tesseract")) := by
  unfold resolve_engine
  simp [h1, h2, h3, h4, h5]

theorem resolve_engine_unknown_none (req : String)
    (h1 : req ≠ "hybrid") (h2 : req ≠ "trocr") (h3 : req ≠ "easyocr")
    (h4 : req ≠ "tesseract") (h5 : req ≠ "paddleocr") :
    resolve_engine req false false =
      .error "OCR not available. Install pytesseract or paddleocr." := by
  unfold resolve_engine
  simp [h1, h2, h3, h4, h5]

theorem mentionsCI_unknown_reason (req tail : String) :
    mentionsCI req ("Unknown ocr_engine '" ++ req ++ tail) := by
  refine mentionsCI_append_left _ _ _ ?_
  exact mentionsCI_append_right _ _ _ (mentionsCI_refl req)

/-- Whenever resolution succeeds with an engine different from the
(lower-cased) request, the fallback reason names both engines. -/
theorem resolve_engine_changed_mentions (req : String) (pa oa : Bool)
    (eng : String) (fb : Option String)
    (hres : resolve_engine req pa oa = .ok (eng, fb)) (hne : eng ≠ req) :
    ∃ r, fb = some r ∧ mentionsCI req r ∧ mentionsCI eng r := by
  by_cases ht : req = "tesseract"
  · subst ht
    cases pa <;> cases oa <;> simp_all [resolve_engine]
    obtain ⟨he, hf⟩ := hres
    subst he
    subst hf
    exact ⟨_, rfl, by decide, by decide⟩
  by_cases hp : req = "paddleocr"
  · subst hp
    cases pa <;> cases oa <;> simp_all [resolve_engine]
    obtain ⟨he, hf⟩ := hres
    subst he
    subst hf
    exact ⟨_, rfl, by decide, by decide⟩
  unfold resolve_engine at hres
  repeat' split at hres
  all_goals simp_all
  all_goals obtain ⟨he, hf⟩ := hres
  all_goals subst he
  all_goals subst hf
  all_goals refine ⟨_, rfl, ?_, ?_⟩
  all_goals first
    | exact mentionsCI_refl_append _ _
    | exact mentionsCI_unknown_reason _ _
    | exact mentionsCI_append_right _ _ _ (by decide)

/-- C1: For every extraction request, engine resolution is a deterministic
function of the lower-cased requested engine name and the availability
flags: any name outside `{tesseract, paddleocr}` (including the aliases
`hybrid`, `trocr`, `easyocr`) resolves to paddleocr when available, else
tesseract when available, else fails with an "OCR not available" error;
an unavailable canonical engine falls back to the other one or fails;
whenever the resolved engine differs from the request a fallback reason
naming both engines is recorded; and requesting "trocr" with only
tesseract available yields engine "tesseract" with a reason mentioning
"trocr" and "tesseract". -/
theorem C1_engine_resolution (req : String) (pa oa : Bool) :
    (¬(req = "tesseract" ∨ req = "paddleocr") →
      (pa = true →
        ∃ r, resolve_engine req pa oa = .ok ("paddleocr", some r) ∧
          mentionsCI req r ∧ mentionsCI "paddleocr" r) ∧
      (pa = false → oa = true →
        ∃ r, resolve_engine req pa oa = .ok ("tesseract", some r) ∧
          mentionsCI req r ∧ mentionsCI "tesseract" r) ∧
      (pa = false → oa = false →
        ∃ e, resolve_engine req pa oa = .error e ∧
          "OCR not available".data <+: e.data)) ∧
    (req = "paddleocr" → pa = false →
      (oa = true → resolve_engine req pa oa =
          .ok ("tesseract", some "PaddleOCR not available; using tesseract")) ∧
      (oa = false → ∃ e, resolve_engine req pa oa = .error e ∧
          "OCR not available".data <+: e.data)) ∧
    (req = "tesseract" → oa = false →
      (pa = true → resolve_engine req pa oa =
          .ok ("paddleocr", some "Tesseract not available; using paddleocr")) ∧
      (pa = false → ∃ e, resolve_engine req pa oa = .error e ∧
          "OCR not available".data <+: e.data)) ∧
    (∀ eng fb, resolve_engine req pa oa = .ok (eng, fb) → eng ≠ req →
      ∃ r, fb = some r ∧ mentionsCI req r ∧ mentionsCI eng r) ∧
    (resolve_engine "trocr" false true =
        .ok ("tesseract", some "trocr not implemented; using tesseract") ∧
      mentionsCI "trocr" "trocr not implemented; using tesseract" ∧
      mentionsCI "tesseract" "trocr not implemented; using tesseract") := by
  refine ⟨?_, ?_, ?_, ?_, by simp [resolve_engine], by decide, by decide⟩
  · intro hreq
    obtain ⟨h4, h5⟩ := not_or.mp hreq
    refine ⟨?_, ?_, ?_⟩
    · intro hpa
      subst hpa
      by_cases halias : req = "hybrid" ∨ req = "trocr" ∨ req = "easyocr"
      · rcases halias with h | h | h <;> subst h
        · exact ⟨"hybrid not implemented; using paddleocr",
            by simp [resolve_engine], by decide, by decide⟩
        · exact ⟨"trocr not implemented; using paddleocr",
            by simp [resolve_engine], by decide, by decide⟩
        · exact ⟨"easyocr not implemented; using paddleocr",
            by simp [resolve_engine], by decide, by decide⟩
      · push_neg at halias
        obtain ⟨h1, h2, h3⟩ := halias
        exact ⟨_, resolve_engine_unknown_pa req oa h1 h2 h3 h4 h5,
          mentionsCI_unknown_reason req _, mentionsCI_append_right _ _ _ (by decide)⟩
    · intro hpa hoa
      subst hpa
      subst hoa
      by_cases halias : req = "hybrid" ∨ req = "trocr" ∨ req = "easyocr"
      · rcases halias with h | h | h <;> subst h
        · exact ⟨"hybrid not implemented; using tesseract",
            by simp [resolve_engine], by decide, by decide⟩
        · exact ⟨"trocr not implemented; using tesseract",
            by simp [resolve_engine], by decide, by decide⟩
        · exact ⟨"easyocr not implemented; using tesseract",
            by simp [resolve_engine], by decide, by decide⟩
      · push_neg at halias
        obtain ⟨h1, h2, h3⟩ := halias
        exact ⟨_, resolve_engine_unknown_oa req h1 h2 h3 h4 h5,
          mentionsCI_unknown_reason req _, mentionsCI_append_right _ _ _ (by decide)⟩
    · intro hpa hoa
      subst hpa
      subst hoa
      by_cases halias : req = "hybrid" ∨ req = "trocr" ∨ req = "easyocr"
      · rcases halias with h | h | h <;> subst h <;>
          exact ⟨"OCR not available. Install pytesseract or paddleocr.",
            by simp [resolve_engine], by decide⟩
      · push_neg at halias
        obtain ⟨h1, h2, h3⟩ := halias
        exact ⟨_, resolve_engine_unknown_none req h1 h2 h3 h4 h5, by decide⟩
  · intro hreq hpa
    subst hreq
    subst hpa
    refine ⟨?_, ?_⟩
    · intro hoa; subst hoa; simp [resolve_engine]
    · intro hoa
      subst hoa
      exact ⟨"OCR not available. PaddleOCR not installed and pytesseract unavailable.",
        by simp [resolve_engine], by decide⟩
  · intro hreq hoa
    subst hreq
    subst hoa
    refine ⟨?_, ?_⟩
    · intro hpa; subst hpa; simp [resolve_engine]
    · intro hpa
      subst hpa
      exact ⟨"OCR not available. pytesseract is not installed.",
        by simp [resolve_engine], by decide⟩
  · exact fun eng fb hres hne => resolve_engine_changed_mentions req pa oa eng fb hres hne

/-- C1 witness: concrete instance (request "trocr", only tesseract
available) of the resolution theorem, hypotheses discharged. -/
theorem C1_engine_resolution_witness :
    ∃ r, resolve_engine "trocr" false true = .ok ("tesseract", some r) ∧
      mentionsCI "trocr" r ∧ mentionsCI "tesseract" r :=
  ((C1_engine_resolution "trocr" false true).1 (by decide)).2.1 rfl rfl

/-! ## Execution phase and runtime fallback

Embeds the engine-execution part of both endpoints: the `try/except`
around `perform_paddleocr_with_stats` (full page: server.py lines
1500-1509; region: lines 1694-1702), the unguarded tesseract block that
follows it, and the outer `except` that turns an uncaught exception into
`success = False` with `error = errPrefix + str(e)`. The native OCR call
of each engine is abstracted by an `EngineRun` value: what that engine
would do if invoked. -/

/-- What a native engine invocation does: return regions plus the
pre-filter detection count, or raise an exception with message `msg`. -/
inductive EngineRun where
  | ok (regions : List OCRTextRegion) (total : Nat)
  | exn (msg : String)
deriving Repr, DecidableEq

/-- Embeds the execution phase. `errPrefix` is
`"OCR extraction failed: "` for the full-page endpoint and
`"OCR region extraction failed: "` for the region endpoint; `oa` is
`OCR_AVAILABLE`. On success the result carries the regions, the total
detection count, the engine that produced them and the final fallback
reason; `.error` is the terminal error string of the response. -/
def run_with_fallback (errPrefix : String) (engineUsed : String)
    (fb : Option String) (oa : Bool) (paddleRun tessRun : EngineRun) :
    Except String (List OCRTextRegion × Nat × String × Option String) :=
  let afterPaddle : Except String (List OCRTextRegion × Nat × String × Option String) :=
    if engineUsed = "paddleocr" then
      match paddleRun with
      | .ok rs t => .ok (rs, t, "paddleocr", fb)
      | .exn e =>
        if oa = false then .error (errPrefix ++ e)
        else .ok ([], 0, "tesseract", some ("PaddleOCR failed: " ++ e ++ "; using tesseract"))
    else .ok ([], 0, engineUsed, fb)
  match afterPaddle with
  | .error e => .error e
  | .ok (rs, t, eng, fb2) =>
    if eng = "tesseract" then
      match tessRun with
      | .ok rs2 t2 => .ok (rs2, t2, "tesseract", fb2)
      | .exn e2 => .error (errPrefix ++ e2)
    else .ok (rs, t, eng, fb2)

/-- C2 counterexample: the claim says a tesseract runtime failure is
retried on paddleocr when paddleocr is available; in the code the
tesseract block has no engine-level `try/except`, so with both engines
available a tesseract exception is surfaced as a terminal error and
paddleocr is never invoked. -/
theorem C2_runtime_fallback_counterexample :
    run_with_fallback "OCR extraction failed: " "tesseract" none true
        (.ok [] 0) (.exn "boom") = .error "OCR extraction failed: boom" ∧
    ¬ ∃ rs t fb, run_with_fallback "OCR extraction failed: " "tesseract" none true
        (.ok [] 0) (.exn "boom") = .ok (rs, t, "paddleocr", fb) := by
  constructor
  · simp [run_with_fallback]
  · rintro ⟨rs, t, fb, h⟩
    simp [run_with_fallback] at h

/-- C2 amended: only the paddleocr → tesseract retry hop exists. A
paddleocr runtime exception is retried exactly once on tesseract when
tesseract is available, with the exception text recorded in the fallback
reason; with tesseract unavailable it is surfaced as a terminal error
naming the original exception; if the tesseract retry itself raises, that
failure is terminal (no second hop); and a tesseract runtime exception is
always surfaced as a terminal error, never retried on paddleocr. -/
theorem C2_runtime_fallback_amended (errPrefix : String) (fb : Option String)
    (paddleRun tessRun : EngineRun) :
    (∀ e rs t, paddleRun = .exn e → tessRun = .ok rs t →
      run_with_fallback errPrefix "paddleocr" fb true paddleRun tessRun =
        .ok (rs, t, "tesseract",
          some ("PaddleOCR failed: " ++ e ++ "; using tesseract"))) ∧
    (∀ e, paddleRun = .exn e →
      run_with_fallback errPrefix "paddleocr" fb false paddleRun tessRun =
        .error (errPrefix ++ e)) ∧
    (∀ e e2, paddleRun = .exn e → tessRun = .exn e2 →
      run_with_fallback errPrefix "paddleocr" fb true paddleRun tessRun =
        .error (errPrefix ++ e2)) ∧
    (∀ oa e, tessRun = .exn e →
      run_with_fallback errPrefix "tesseract" fb oa paddleRun tessRun =
        .error (errPrefix ++ e)) := by
  refine ⟨?_, ?_, ?_, ?_⟩
  · intro e rs t hp htr
    subst hp
    subst htr
    simp [run_with_fallback]
  · intro e hp
    subst hp
    simp [run_with_fallback]
  · intro e e2 hp htr
    subst hp
    subst htr
    simp [run_with_fallback]
  · intro oa e htr
    subst htr
    simp [run_with_fallback]

/-- C2 witness: a concrete paddleocr decoder failure with tesseract
available is retried on tesseract with the exception text recorded. -/
theorem C2_runtime_fallback_witness :
    run_with_fallback "OCR extraction failed: " "paddleocr" none true
        (.exn "decoder failure") (.ok [] 0) =
      .ok ([], 0, "tesseract",
        some ("PaddleOCR failed: " ++ "decoder failure" ++ "; using tesseract")) :=
  (C2_runtime_fallback_amended "OCR extraction failed: " none
    (.exn "decoder failure") (.ok [] 0)).1 "decoder failure" [] 0 rfl rfl

/-! ## Region Cropper (clamping phase of `extract_manga_text_region`)

Embeds server.py lines 1655-1674. The request's float region values pass
through Python `int(...)`; the embedding takes the resulting integers. -/

/-- Embeds the `metadata` dict assembled by the OCR endpoints. -/
structure OCRMetadata where
  confidence_stats : ConfidenceStats
  ocr_engine_requested : String
  ocr_engine_used : String
  fallback_reason : Option String
  preprocessing_profile : String
  psm_mode : String
  total_extracted : Nat
  filtered_count : Nat
  filtered_out : Int
deriving Repr, DecidableEq

/-- Embeds `MangaOCRResponse` (server.py lines 307-311): `regions`
defaults to `[]`, `error` and `metadata` default to `None`. -/
structure MangaOCRResponse where
  success : Bool
  regions : List OCRTextRegion := []
  error : Option String := none
  metadata : Option OCRMetadata := none
deriving Repr, DecidableEq

/-- What the clamping block decides: return early with a response, or
crop the image to `(x, y, w, h)` and run OCR. -/
inductive RegionPhase where
  | earlyReturn (resp : MangaOCRResponse)
  | runOCR (x y w h : Int)
deriving Repr, DecidableEq

/-- Embeds the clamping block of `extract_manga_text_region`:
`x = int(max(0, x))`, `y = int(max(0, y))`; early empty-success return
when `x >= img_width or y >= img_height`; then
`w = max(1, min(w, img_width - x))`, `h = max(1, min(h, img_height - y))`
and early empty-success return when `w <= 1 or h <= 1`; otherwise the
image is cropped to `(x, y, x + w, y + h)` and OCR runs. -/
def region_phase (rx ry rw rh W H : Int) : RegionPhase :=
  if max 0 rx ≥ W ∨ max 0 ry ≥ H then
    .earlyReturn { success := true, regions := [] }
  else if max 1 (min rw (W - max 0 rx)) ≤ 1 ∨ max 1 (min rh (H - max 0 ry)) ≤ 1 then
    .earlyReturn { success := true, regions := [] }
  else
    .runOCR (max 0 rx) (max 0 ry)
      (max 1 (min rw (W - max 0 rx))) (max 1 (min rh (H - max 0 ry)))

/-- C3 counterexample: the rectangle `[-5, 0, 3, 3]` on a 10×10 image
lies entirely outside the image (its clamp to
`[0, image_width) × [0, image_height)` has extent `-2 ≤ 0` in x), yet the
code moves its origin to `(0, 0)` without shrinking it and invokes OCR on
the crop `(0, 0, 3, 3)` instead of returning the empty success result. -/
theorem C3_degenerate_region_counterexample :
    (min ((-5 : Int) + 3) 10 - max (-5 : Int) 0 ≤ 0) ∧
    region_phase (-5) 0 3 3 10 10 = .runOCR 0 0 3 3 := by
  constructor
  · decide
  · simp [region_phase]

/-- C3 amended: for a requested rectangle with non-negative origin, if
its clamp to the image bounds has zero or negative extent in either axis
the endpoint returns the early empty success response (no OCR engine is
invoked); in particular region `[10, 10, 5, 5]` on a 4×4 image does.
Rectangles with a negative origin are instead translated into the image
with their size preserved. -/
theorem C3_degenerate_region_amended :
    (∀ rx ry rw rh W H : Int, 0 ≤ rx → 0 ≤ ry →
      (min (rx + rw) W - max rx 0 ≤ 0 ∨ min (ry + rh) H - max ry 0 ≤ 0) →
      region_phase rx ry rw rh W H =
        .earlyReturn { success := true, regions := [] }) ∧
    region_phase 10 10 5 5 4 4 = .earlyReturn { success := true, regions := [] } := by
  constructor
  · intro rx ry rw rh W H hx hy hdeg
    unfold region_phase
    split_ifs with h1 h2
    · rfl
    · rfl
    · exfalso
      omega
  · simp [region_phase]

/-- C3 witness: the concrete scenario `[10, 10, 5, 5]` on a 4×4 image,
derived from the amended theorem with its hypotheses discharged. -/
theorem C3_degenerate_region_witness :
    region_phase 10 10 5 5 4 4 = .earlyReturn { success := true, regions := [] } :=
  (C3_degenerate_region_amended).1 10 10 5 5 4 4 (by decide) (by decide) (by decide)

/-- C10: whenever the code-clamped width or height is at most 1 — in
particular for a caller-requested 1-pixel-wide or 1-pixel-tall rectangle
fully inside the image — the endpoint returns `success = true` with an
empty region list and a `None` metadata field, and no OCR engine is
invoked; the early response is exactly
`MangaOCRResponse(success=True, regions=[])`. -/
theorem C10_thin_region_empty_success (rx ry rw rh W H : Int)
    (hthin : max 1 (min rw (W - max 0 rx)) ≤ 1 ∨ max 1 (min rh (H - max 0 ry)) ≤ 1) :
    region_phase rx ry rw rh W H =
      .earlyReturn { success := true, regions := [], error := none, metadata := none } := by
  unfold region_phase
  split_ifs with h1
  · rfl
  · rfl

/-- C10 witness: the 1-pixel-wide rectangle `[2, 2, 1, 3]` fully inside a
10×10 image yields the early empty success response with null metadata. -/
theorem C10_thin_region_empty_success_witness :
    region_phase 2 2 1 3 10 10 =
      .earlyReturn { success := true, regions := [], error := none, metadata := none } :=
  C10_thin_region_empty_success 2 2 1 3 10 10 (by decide)

/-! ## Confidence Classifier and ConfidenceStats -/

theorem tier_high_iff (c : ℚ) : classify_confidence_tier c = "high" ↔ 0.60 ≤ c := by
  unfold classify_confidence_tier
  split_ifs with h1 h2 <;> simp_all

theorem tier_medium_iff (c : ℚ) :
    classify_confidence_tier c = "medium" ↔ 0.30 ≤ c ∧ c < 0.60 := by
  unfold classify_confidence_tier
  split_ifs with h1 h2 <;> simp_all

theorem tier_low_iff (c : ℚ) : classify_confidence_tier c = "low" ↔ c < 0.30 := by
  unfold classify_confidence_tier
  split_ifs with h1 h2
  · simp_all
    linarith
  · simp_all
  · simp_all

/-- C5: the tier is "high" iff confidence ≥ 0.60, "medium" iff
0.30 ≤ confidence < 0.60 and "low" otherwise; a confidence of 0.59 is
tiered "medium" and 0.60 is tiered "high". -/
theorem C5_tier_thresholds (c : ℚ) :
    (classify_confidence_tier c = "high" ↔ 0.60 ≤ c) ∧
    (classify_confidence_tier c = "medium" ↔ 0.30 ≤ c ∧ c < 0.60) ∧
    (classify_confidence_tier c = "low" ↔ c < 0.30) ∧
    classify_confidence_tier 0.59 = "medium" ∧
    classify_confidence_tier 0.60 = "high" :=
  ⟨tier_high_iff c, tier_medium_iff c, tier_low_iff c,
    by norm_num [classify_confidence_tier], by norm_num [classify_confidence_tier]⟩

/-- C5 witness: the two boundary scenarios, from the theorem. -/
theorem C5_tier_thresholds_witness :
    classify_confidence_tier 0.59 = "medium" ∧ classify_confidence_tier 0.60 = "high" :=
  (C5_tier_thresholds 0).2.2.2

theorem foldl_min_le_init (l : List ℚ) : ∀ a : ℚ, l.foldl min a ≤ a := by
  induction l with
  | nil => intro a; simp
  | cons x xs ih =>
    intro a
    simpa using le_trans (ih (min a x)) (min_le_left a x)

theorem foldl_min_le_mem (l : List ℚ) : ∀ a x, x ∈ l → l.foldl min a ≤ x := by
  induction l with
  | nil => simp
  | cons y ys ih =>
    intro a x hx
    rcases List.mem_cons.mp hx with rfl | hx
    · simpa using le_trans (foldl_min_le_init ys (min a x)) (min_le_right a x)
    · simpa using ih (min a y) x hx

theorem foldl_min_mem (l : List ℚ) : ∀ a, l.foldl min a = a ∨ l.foldl min a ∈ l := by
  induction l with
  | nil => intro a; left; rfl
  | cons y ys ih =>
    intro a
    rw [List.foldl_cons]
    rcases ih (min a y) with h | h
    · rcases le_total a y with hay | hay
      · left; rw [h, min_eq_left hay]
      · right; rw [h, min_eq_right hay]; exact List.mem_cons_self y ys
    · right; exact List.mem_cons_of_mem y h

theorem foldl_max_init_le (l : List ℚ) : ∀ a : ℚ, a ≤ l.foldl max a := by
  induction l with
  | nil => intro a; simp
  | cons x xs ih =>
    intro a
    simpa using le_trans (le_max_left a x) (ih (max a x))

theorem foldl_max_mem_le (l : List ℚ) : ∀ a x, x ∈ l → x ≤ l.foldl max a := by
  induction l with
  | nil => simp
  | cons y ys ih =>
    intro a x hx
    rcases List.mem_cons.mp hx with rfl | hx
    · simpa using le_trans (le_max_right a x) (foldl_max_init_le ys (max a x))
    · simpa using ih (max a y) x hx

theorem foldl_max_mem (l : List ℚ) : ∀ a, l.foldl max a = a ∨ l.foldl max a ∈ l := by
  induction l with
  | nil => intro a; left; rfl
  | cons y ys ih =>
    intro a
    rw [List.foldl_cons]
    rcases ih (max a y) with h | h
    · rcases le_total a y with hay | hay
      · right; rw [h, max_eq_right hay]; exact List.mem_cons_self y ys
      · left; rw [h, max_eq_left hay]
    · right; exact List.mem_cons_of_mem y h

theorem pyMin_mem (l : List ℚ) (h : l ≠ []) : pyMin l ∈ l := by
  cases l with
  | nil => exact absurd rfl h
  | cons c rest =>
    rw [pyMin]
    rcases foldl_min_mem rest c with h1 | h1
    · rw [h1]; exact List.mem_cons_self c rest
    · exact List.mem_cons_of_mem c h1

theorem pyMin_le (l : List ℚ) (x : ℚ) (hx : x ∈ l) : pyMin l ≤ x := by
  cases l with
  | nil => simp at hx
  | cons c rest =>
    rw [pyMin]
    rcases List.mem_cons.mp hx with rfl | hx
    · exact foldl_min_le_init rest x
    · exact foldl_min_le_mem rest c x hx

theorem pyMax_mem (l : List ℚ) (h : l ≠ []) : pyMax l ∈ l := by
  cases l with
  | nil => exact absurd rfl h
  | cons c rest =>
    rw [pyMax]
    rcases foldl_max_mem rest c with h1 | h1
    · rw [h1]; exact List.mem_cons_self c rest
    · exact List.mem_cons_of_mem c h1

theorem le_pyMax (l : List ℚ) (x : ℚ) (hx : x ∈ l) : x ≤ pyMax l := by
  cases l with
  | nil => simp at hx
  | cons c rest =>
    rw [pyMax]
    rcases List.mem_cons.mp hx with rfl | hx
    · exact foldl_max_init_le rest x
    · exact foldl_max_mem_le rest c x hx

theorem insertSorted_perm (c : ℚ) : ∀ l : List ℚ, (insertSorted c l).Perm (c :: l) := by
  intro l
  induction l with
  | nil => exact List.Perm.refl _
  | cons x xs ih =>
    rw [insertSorted]
    split_ifs with hcx
    · exact List.Perm.refl _
    · exact (ih.cons x).trans (List.Perm.swap c x xs)

theorem insertSorted_sorted (c : ℚ) :
    ∀ l : List ℚ, l.Sorted (· ≤ ·) → (insertSorted c l).Sorted (· ≤ ·) := by
  intro l
  induction l with
  | nil => intro _; simp [insertSorted]
  | cons x xs ih =>
    intro hs
    rw [List.sorted_cons] at hs
    obtain ⟨hx, hxs⟩ := hs
    rw [insertSorted]
    split_ifs with hcx
    · rw [List.sorted_cons]
      refine ⟨?_, List.sorted_cons.mpr ⟨hx, hxs⟩⟩
      intro b hb
      rcases List.mem_cons.mp hb with rfl | hb
      · exact hcx
      · exact le_trans hcx (hx b hb)
    · rw [List.sorted_cons]
      refine ⟨?_, ih hxs⟩
      intro b hb
      rcases List.mem_cons.mp ((insertSorted_perm c xs).mem_iff.mp hb) with rfl | hb
      · exact le_of_not_le hcx
      · exact hx b hb

theorem sortConf_perm : ∀ l : List ℚ, (sortConf l).Perm l
  | [] => List.Perm.refl _
  | x :: xs => (insertSorted_perm x (sortConf xs)).trans ((sortConf_perm xs).cons x)

theorem sortConf_sorted : ∀ l : List ℚ, (sortConf l).Sorted (· ≤ ·)
  | [] => by simp [sortConf]
  | x :: xs => insertSorted_sorted x (sortConf xs) (sortConf_sorted xs)

/-- A concrete region with the given confidence, for scenario checks. -/
def mkRegion (conf : ℚ) : OCRTextRegion :=
  { text := "t", bbox := (0, 0, 1, 1), confidence := conf,
    confidence_tier := classify_confidence_tier conf }

/-- C6 counterexample: for the even-count confidence list [0.2, 0.4] the
code's median is `sorted[len // 2] = 0.4`, the upper-middle element, not
the claimed average `(0.2 + 0.4) / 2 = 0.3` of the two middle values. -/
theorem C6_median_counterexample :
    (calculate_confidence_stats [mkRegion 0.2, mkRegion 0.4]).median = 0.4 ∧
    ((0.4 : ℚ) ≠ (0.2 + 0.4) / 2) := by
  constructor
  · have h : ([mkRegion 0.2, mkRegion 0.4] : List OCRTextRegion) ≠ [] := by simp
    simp only [calculate_confidence_stats, if_neg h]
    norm_num [mkRegion, sortConf, insertSorted]
  · norm_num

theorem stats_count_eq (regions : List OCRTextRegion) :
    (calculate_confidence_stats regions).count = regions.length := by
  by_cases h : regions = []
  · subst h; simp [calculate_confidence_stats]
  · simp only [calculate_confidence_stats, if_neg h]

/-- C6 amended: for the empty region list all stats are zero; for a
non-empty list, `count` is the number of regions, `min`/`max` are the
least/greatest confidence, `avg` is the arithmetic mean, and `median` is
the element at index `count / 2` (0-based) of the ascending-sorted
confidences — the middle value for an odd count, but the upper-middle
value (not the average of the two middle values) for an even count. -/
theorem C6_confidence_stats_amended (regions : List OCRTextRegion) :
    (regions = [] → calculate_confidence_stats regions =
      { count := 0, min := 0, max := 0, avg := 0, median := 0,
        dist_high := 0, dist_medium := 0, dist_low := 0 }) ∧
    (regions ≠ [] →
      (calculate_confidence_stats regions).count = regions.length ∧
      (calculate_confidence_stats regions).min ∈ regions.map (·.confidence) ∧
      (∀ c ∈ regions.map (·.confidence), (calculate_confidence_stats regions).min ≤ c) ∧
      (calculate_confidence_stats regions).max ∈ regions.map (·.confidence) ∧
      (∀ c ∈ regions.map (·.confidence), c ≤ (calculate_confidence_stats regions).max) ∧
      (calculate_confidence_stats regions).avg =
        (regions.map (·.confidence)).sum / (regions.length : ℚ) ∧
      ∃ s : List ℚ, s.Sorted (· ≤ ·) ∧ s.Perm (regions.map (·.confidence)) ∧
        (calculate_confidence_stats regions).median = s.getD (regions.length / 2) 0) := by
  constructor
  · intro h
    subst h
    simp [calculate_confidence_stats]
  · intro h
    have hmap : regions.map (·.confidence) ≠ [] := by
      simpa using h
    have hlen : (sortConf (regions.map (·.confidence))).length = regions.length := by
      rw [(sortConf_perm _).length_eq, List.length_map]
    have hmin : (calculate_confidence_stats regions).min =
        pyMin (regions.map (·.confidence)) := by
      simp only [calculate_confidence_stats, if_neg h]
    have hmax : (calculate_confidence_stats regions).max =
        pyMax (regions.map (·.confidence)) := by
      simp only [calculate_confidence_stats, if_neg h]
    have havg : (calculate_confidence_stats regions).avg =
        (regions.map (·.confidence)).sum / ((regions.map (·.confidence)).length : ℚ) := by
      simp only [calculate_confidence_stats, if_neg h]
    have hmed : (calculate_confidence_stats regions).median =
        (sortConf (regions.map (·.confidence))).getD
          ((sortConf (regions.map (·.confidence))).length / 2) 0 := by
      simp only [calculate_confidence_stats, if_neg h]
    refine ⟨stats_count_eq regions, ?_, ?_, ?_, ?_, ?_,
      sortConf (regions.map (·.confidence)), sortConf_sorted _, sortConf_perm _, ?_⟩
    · rw [hmin]; exact pyMin_mem _ hmap
    · intro c hc; rw [hmin]; exact pyMin_le _ c hc
    · rw [hmax]; exact pyMax_mem _ hmap
    · intro c hc; rw [hmax]; exact le_pyMax _ c hc
    · rw [havg, List.length_map]
    · rw [hmed, hlen]

/-- C6 witness: the median clause of the amended theorem at the concrete
even-count list [0.2, 0.4]. -/
theorem C6_confidence_stats_witness :
    ∃ s : List ℚ, s.Sorted (· ≤ ·) ∧
      s.Perm ([mkRegion 0.2, mkRegion 0.4].map (·.confidence)) ∧
      (calculate_confidence_stats [mkRegion 0.2, mkRegion 0.4]).median =
        s.getD ([mkRegion 0.2, mkRegion 0.4].length / 2) 0 :=
  ((C6_confidence_stats_amended [mkRegion 0.2, mkRegion 0.4]).2 (by simp)).2.2.2.2.2.2

theorem dist_high_eq (regions : List OCRTextRegion) :
    (calculate_confidence_stats regions).dist_high =
      regions.countP (fun r => classify_confidence_tier r.confidence == "high") := by
  by_cases h : regions = []
  · subst h; simp [calculate_confidence_stats]
  · simp only [calculate_confidence_stats, if_neg h, List.countP_map]
    refine List.countP_congr ?_
    intro r _
    simp [Function.comp, tier_high_iff]

theorem dist_medium_eq (regions : List OCRTextRegion) :
    (calculate_confidence_stats regions).dist_medium =
      regions.countP (fun r => classify_confidence_tier r.confidence == "medium") := by
  by_cases h : regions = []
  · subst h; simp [calculate_confidence_stats]
  · simp only [calculate_confidence_stats, if_neg h, List.countP_map]
    refine List.countP_congr ?_
    intro r _
    simp [Function.comp, tier_medium_iff]

theorem dist_low_eq (regions : List OCRTextRegion) :
    (calculate_confidence_stats regions).dist_low =
      regions.countP (fun r => (classify_confidence_tier r.confidence == "low") &&
        decide ((0.15 : ℚ) ≤ r.confidence)) := by
  by_cases h : regions = []
  · subst h; simp [calculate_confidence_stats]
  · simp only [calculate_confidence_stats, if_neg h, List.countP_map]
    refine List.countP_congr ?_
    intro r _
    constructor
    · intro hc
      simp only [decide_eq_true_eq, Function.comp] at hc
      simp [tier_low_iff, hc.2, hc.1]
    · intro hc
      simp only [Bool.and_eq_true, beq_iff_eq, tier_low_iff, decide_eq_true_eq] at hc
      simp [Function.comp, hc.1, hc.2]

theorem countP_tier_sum (l : List OCRTextRegion)
    (hall : ∀ r ∈ l, (0.15 : ℚ) ≤ r.confidence) :
    l.countP (fun r => classify_confidence_tier r.confidence == "high") +
    l.countP (fun r => classify_confidence_tier r.confidence == "medium") +
    l.countP (fun r => (classify_confidence_tier r.confidence == "low") &&
      decide ((0.15 : ℚ) ≤ r.confidence)) = l.length := by
  induction l with
  | nil => simp
  | cons r rs ih =>
    have hr := hall r (List.mem_cons_self r rs)
    have ih2 := ih (fun x hx => hall x (List.mem_cons_of_mem r hx))
    simp only [List.countP_cons, List.length_cons]
    rcases le_or_lt (0.60 : ℚ) r.confidence with h6 | h6
    · have ht : classify_confidence_tier r.confidence = "high" := (tier_high_iff _).mpr h6
      simp [ht]
      omega
    · rcases le_or_lt (0.30 : ℚ) r.confidence with h3 | h3
      · have ht : classify_confidence_tier r.confidence = "medium" :=
          (tier_medium_iff _).mpr ⟨h3, h6⟩
        simp [ht]
        omega
      · have ht : classify_confidence_tier r.confidence = "low" := (tier_low_iff _).mpr h3
        simp [ht, hr]
        omega

/-- C7 counterexample: a region with confidence 0.10 has tier "low" but
is counted in no distribution bucket (the low bucket requires
`0.15 <= c < 0.30`), so the bucket sum is 0 while the count is 1. -/
theorem C7_distribution_counterexample :
    classify_confidence_tier (0.10 : ℚ) = "low" ∧
    (calculate_confidence_stats [mkRegion 0.10]).dist_high = 0 ∧
    (calculate_confidence_stats [mkRegion 0.10]).dist_medium = 0 ∧
    (calculate_confidence_stats [mkRegion 0.10]).dist_low = 0 ∧
    (calculate_confidence_stats [mkRegion 0.10]).count = 1 := by
  refine ⟨by norm_num [classify_confidence_tier], ?_, ?_, ?_, ?_⟩ <;>
    norm_num [calculate_confidence_stats, mkRegion]

/-- C7 amended: the high and medium buckets count exactly the regions
whose tier is "high" / "medium", but the low bucket counts only regions
whose tier is "low" AND whose confidence is at least 0.15; a region with
confidence below 0.15 is counted in no bucket. Consequently
`high + medium + low = count` holds whenever every region's confidence is
at least 0.15 (as is the case for adapter output, which filters below
0.15), but not in general. -/
theorem C7_distribution_amended (regions : List OCRTextRegion) :
    (calculate_confidence_stats regions).dist_high =
      regions.countP (fun r => classify_confidence_tier r.confidence == "high") ∧
    (calculate_confidence_stats regions).dist_medium =
      regions.countP (fun r => classify_confidence_tier r.confidence == "medium") ∧
    (calculate_confidence_stats regions).dist_low =
      regions.countP (fun r => (classify_confidence_tier r.confidence == "low") &&
        decide ((0.15 : ℚ) ≤ r.confidence)) ∧
    ((∀ r ∈ regions, (0.15 : ℚ) ≤ r.confidence) →
      (calculate_confidence_stats regions).dist_high +
        (calculate_confidence_stats regions).dist_medium +
        (calculate_confidence_stats regions).dist_low =
        (calculate_confidence_stats regions).count) := by
  refine ⟨dist_high_eq regions, dist_medium_eq regions, dist_low_eq regions, ?_⟩
  intro hall
  rw [dist_high_eq, dist_medium_eq, dist_low_eq, stats_count_eq]
  exact countP_tier_sum regions hall

/-- C7 witness: with a single region of confidence 0.2 (≥ 0.15) the
bucket sum equals the count. -/
theorem C7_distribution_witness :
    (calculate_confidence_stats [mkRegion 0.2]).dist_high +
      (calculate_confidence_stats [mkRegion 0.2]).dist_medium +
      (calculate_confidence_stats [mkRegion 0.2]).dist_low =
      (calculate_confidence_stats [mkRegion 0.2]).count :=
  (C7_distribution_amended [mkRegion 0.2]).2.2.2 (by
    intro r hr
    simp only [List.mem_singleton] at hr
    subst hr
    norm_num [mkRegion])

/-! ## Polygon-engine adapter (`perform_paddleocr_with_stats`)

Embeds `_parse_paddle_bbox` (server.py lines 1257-1304) and the filter /
offset loop of `perform_paddleocr_with_stats` (lines 1362-1426). The
native engine output `_iter_paddle_entries(result)` is abstracted as a
list of entries. -/

/-- The bbox shapes `_parse_paddle_bbox` accepts: a flat 4-number
rectangle `[x1, y1, x2, y2]`, or a list of 2-coordinate points (4-point
polygon or 2-point rectangle). -/
inductive PaddleBBox where
  | flat (x1 y1 x2 y2 : ℚ)
  | points (ps : List (ℚ × ℚ))
deriving Repr, DecidableEq

/-- Embeds `_parse_paddle_bbox`: `None` stays `None`; a flat rectangle
yields `(min x, min y, |x2-x1|, |y2-y1|)`; a point list with fewer than
two points is rejected, otherwise the axis-aligned hull
`(min xs, min ys, max xs - min xs, max ys - min ys)` is returned. -/
def parse_paddle_bbox : Option PaddleBBox → Option (ℚ × ℚ × ℚ × ℚ)
  | none => none
  | some (.flat x1 y1 x2 y2) =>
      some (min x1 x2, min y1 y2, |x2 - x1|, |y2 - y1|)
  | some (.points ps) =>
      if ps.length < 2 then none
      else
        let xs := ps.map Prod.fst
        let ys := ps.map Prod.snd
        some (pyMin xs, pyMin ys, pyMax xs - pyMin xs, pyMax ys - pyMin ys)

/-- Embeds Python `str.strip()`: drop leading and trailing whitespace
(executable, unlike `String.trim`, so concrete instances evaluate). -/
def pyStrip (s : String) : String :=
  ⟨((s.data.dropWhile Char.isWhitespace).reverse.dropWhile Char.isWhitespace).reverse⟩

/-- One detection yielded by `_iter_paddle_entries`. -/
structure PaddleEntry where
  bbox : Option PaddleBBox
  text : String
  confidence : ℚ
deriving Repr, DecidableEq

/-- Embeds the loop of `perform_paddleocr_with_stats`: entries with empty
(stripped) text are skipped without counting; every other entry counts
toward `total_extracted`; entries below the 0.15 confidence floor or with
an unparseable bbox are dropped; kept entries get the crop offsets added
to their bbox origin and a confidence tier. -/
def perform_paddleocr_with_stats (x_offset y_offset : ℚ) :
    List PaddleEntry → List OCRTextRegion × Nat
  | [] => ([], 0)
  | e :: rest =>
    let tail := perform_paddleocr_with_stats x_offset y_offset rest
    if pyStrip e.text = "" then tail
    else if e.confidence < 0.15 then (tail.1, tail.2 + 1)
    else
      match parse_paddle_bbox e.bbox with
      | none => (tail.1, tail.2 + 1)
      | some (bx, bly, bw, bh) =>
        ({ text := pyStrip e.text
           bbox := (bx + x_offset, bly + y_offset, bw, bh)
           confidence := e.confidence
           confidence_tier := classify_confidence_tier e.confidence } :: tail.1,
         tail.2 + 1)

/-- The crop rectangle produced by the clamping phase lies inside the
image: non-negative origin and `x + w ≤ W`, `y + h ≤ H`. -/
theorem region_phase_crop_in_image (rx ry rw rh W H cx cy cw ch : Int)
    (hcrop : region_phase rx ry rw rh W H = .runOCR cx cy cw ch) :
    0 ≤ cx ∧ 0 ≤ cy ∧ cx + cw ≤ W ∧ cy + ch ≤ H := by
  unfold region_phase at hcrop
  split_ifs at hcrop with h1 h2
  obtain ⟨hx, hy, hw, hh⟩ := RegionPhase.runOCR.inj hcrop
  subst hx
  subst hy
  subst hw
  subst hh
  constructor
  · exact le_max_left 0 rx
  constructor
  · exact le_max_left 0 ry
  constructor
  · omega
  · omega

/-- Every region produced by the adapter comes from some entry whose
parsed bbox it offsets. -/
theorem perform_paddle_mem (xo yo : ℚ) (entries : List PaddleEntry)
    (r : OCRTextRegion) (hr : r ∈ (perform_paddleocr_with_stats xo yo entries).1) :
    ∃ e ∈ entries, ∃ bx bly bw bh,
      parse_paddle_bbox e.bbox = some (bx, bly, bw, bh) ∧
      r.bbox = (bx + xo, bly + yo, bw, bh) := by
  induction entries with
  | nil => simp [perform_paddleocr_with_stats] at hr
  | cons e rest ih =>
    rw [perform_paddleocr_with_stats] at hr
    split_ifs at hr with h1 h2
    · obtain ⟨e2, he2, hrest⟩ := ih hr
      exact ⟨e2, List.mem_cons_of_mem e he2, hrest⟩
    · obtain ⟨e2, he2, hrest⟩ := ih hr
      exact ⟨e2, List.mem_cons_of_mem e he2, hrest⟩
    · revert hr
      rcases hpb : parse_paddle_bbox e.bbox with _ | ⟨bx, bly, bw, bh⟩
      · intro hr
        obtain ⟨e2, he2, hrest⟩ := ih hr
        exact ⟨e2, List.mem_cons_of_mem e he2, hrest⟩
      · intro hr
        rcases List.mem_cons.mp hr with hhead | htail
        · exact ⟨e, List.mem_cons_self e rest, bx, bly, bw, bh, hpb, by rw [hhead]⟩
        · obtain ⟨e2, he2, hrest⟩ := ih htail
          exact ⟨e2, List.mem_cons_of_mem e he2, hrest⟩

/-- One word of the parallel arrays returned by
`pytesseract.image_to_data` in the region endpoint: stripped text is
checked against `""`, `conf` is the 0-100 confidence (already converted
by `float(...)`; a failed conversion is `-1`), and `left`/`top`/
`width`/`height` are the box integers converted by `float(...)`. -/
structure TessEntry where
  text : String
  conf : ℚ
  left : ℚ
  top : ℚ
  width : ℚ
  height : ℚ
deriving Repr, DecidableEq

/-- Embeds the tesseract loop of `extract_manga_text_region` (server.py
lines 1727-1751): `total_extracted` counts every entry; entries with
empty stripped text or confidence below the 15-point floor are skipped;
kept entries get the clamped crop origin `(x, y)` added to `left`/`top`
(`region_x = float(ocr_data["left"][i]) + x`), confidence divided by 100
and a tier. -/
def tesseract_region_extract (x_offset y_offset : ℚ) :
    List TessEntry → List OCRTextRegion × Nat
  | [] => ([], 0)
  | e :: rest =>
    let tail := tesseract_region_extract x_offset y_offset rest
    if pyStrip e.text = "" ∨ e.conf < 15 then (tail.1, tail.2 + 1)
    else
      ({ text := pyStrip e.text
         bbox := (e.left + x_offset, e.top + y_offset, e.width, e.height)
         confidence := e.conf / 100
         confidence_tier := classify_confidence_tier (e.conf / 100) } :: tail.1,
       tail.2 + 1)

/-- Every region produced by the tesseract region loop comes from some
entry whose box it offsets by the crop origin. -/
theorem tess_region_mem (xo yo : ℚ) (entries : List TessEntry)
    (r : OCRTextRegion) (hr : r ∈ (tesseract_region_extract xo yo entries).1) :
    ∃ e ∈ entries, r.bbox = (e.left + xo, e.top + yo, e.width, e.height) := by
  induction entries with
  | nil => simp [tesseract_region_extract] at hr
  | cons e rest ih =>
    rw [tesseract_region_extract] at hr
    split_ifs at hr with h1
    · obtain ⟨e2, he2, hrest⟩ := ih hr
      exact ⟨e2, List.mem_cons_of_mem e he2, hrest⟩
    · rcases List.mem_cons.mp hr with hhead | htail
      · exact ⟨e, List.mem_cons_self e rest, by rw [hhead]⟩
      · obtain ⟨e2, he2, hrest⟩ := ih htail
        exact ⟨e2, List.mem_cons_of_mem e he2, hrest⟩

/-- C4: for every region-extraction call that reaches OCR — via either
the paddleocr adapter or the tesseract loop — if the adapter reports
bounding boxes contained within the cropped image `[0, cw] × [0, ch]` it
was given, then every returned region's bbox is the adapter bbox with
the clamped crop origin added back, and lies within
`[0, image_width] × [0, image_height]` of the original image, whatever
crop rectangle was requested. -/
theorem C4_region_bbox_in_image_bounds (rx ry rw rh W H cx cy cw ch : Int)
    (entries : List PaddleEntry) (tentries : List TessEntry)
    (hcrop : region_phase rx ry rw rh W H = .runOCR cx cy cw ch)
    (hadapter : ∀ e ∈ entries, ∀ bx bly bw bh : ℚ,
      parse_paddle_bbox e.bbox = some (bx, bly, bw, bh) →
      0 ≤ bx ∧ 0 ≤ bly ∧ bx + bw ≤ (cw : ℚ) ∧ bly + bh ≤ (ch : ℚ))
    (htessadapter : ∀ e ∈ tentries,
      0 ≤ e.left ∧ 0 ≤ e.top ∧ e.left + e.width ≤ (cw : ℚ) ∧ e.top + e.height ≤ (ch : ℚ)) :
    (∀ r ∈ (perform_paddleocr_with_stats (cx : ℚ) (cy : ℚ) entries).1,
      (∃ e ∈ entries, ∃ bx bly bw bh : ℚ,
        parse_paddle_bbox e.bbox = some (bx, bly, bw, bh) ∧
        r.bbox = (bx + (cx : ℚ), bly + (cy : ℚ), bw, bh)) ∧
      0 ≤ r.bbox.1 ∧ 0 ≤ r.bbox.2.1 ∧
      r.bbox.1 + r.bbox.2.2.1 ≤ (W : ℚ) ∧ r.bbox.2.1 + r.bbox.2.2.2 ≤ (H : ℚ)) ∧
    (∀ r ∈ (tesseract_region_extract (cx : ℚ) (cy : ℚ) tentries).1,
      (∃ e ∈ tentries, r.bbox = (e.left + (cx : ℚ), e.top + (cy : ℚ), e.width, e.height)) ∧
      0 ≤ r.bbox.1 ∧ 0 ≤ r.bbox.2.1 ∧
      r.bbox.1 + r.bbox.2.2.1 ≤ (W : ℚ) ∧ r.bbox.2.1 + r.bbox.2.2.2 ≤ (H : ℚ)) := by
  obtain ⟨hcx, hcy, hcwW, hchH⟩ := region_phase_crop_in_image rx ry rw rh W H cx cy cw ch hcrop
  have hcxQ : (0 : ℚ) ≤ (cx : ℚ) := by exact_mod_cast hcx
  have hcyQ : (0 : ℚ) ≤ (cy : ℚ) := by exact_mod_cast hcy
  have hcwQ : (cx : ℚ) + (cw : ℚ) ≤ (W : ℚ) := by exact_mod_cast hcwW
  have hchQ : (cy : ℚ) + (ch : ℚ) ≤ (H : ℚ) := by exact_mod_cast hchH
  constructor
  · intro r hr
    obtain ⟨e, he, bx, bly, bw, bh, hpb, hbbox⟩ :=
      perform_paddle_mem (cx : ℚ) (cy : ℚ) entries r hr
    obtain ⟨hbx, hbly, hbw, hbh⟩ := hadapter e he bx bly bw bh hpb
    refine ⟨⟨e, he, bx, bly, bw, bh, hpb, hbbox⟩, ?_⟩
    rw [hbbox]
    refine ⟨by simpa using add_nonneg hbx hcxQ, by simpa using add_nonneg hbly hcyQ, ?_, ?_⟩
    · simp only
      linarith
    · simp only
      linarith
  · intro r hr
    obtain ⟨e, he, hbbox⟩ := tess_region_mem (cx : ℚ) (cy : ℚ) tentries r hr
    obtain ⟨hbx, hbly, hbw, hbh⟩ := htessadapter e he
    refine ⟨⟨e, he, hbbox⟩, ?_⟩
    rw [hbbox]
    refine ⟨by simpa using add_nonneg hbx hcxQ, by simpa using add_nonneg hbly hcyQ, ?_, ?_⟩
    · simp only
      linarith
    · simp only
      linarith

/-- A concrete in-crop detection used to instantiate the bbox theorem. -/
def sampleEntry : PaddleEntry :=
  { bbox := some (.flat 1 1 3 2), text := "hi", confidence := 0.9 }

/-- The region the adapter produces from `sampleEntry` at crop origin
`(0, 0)`. -/
def sampleRegion : OCRTextRegion :=
  { text := pyStrip "hi"
    bbox := (min (1 : ℚ) 3 + ((0 : Int) : ℚ), min (1 : ℚ) 2 + ((0 : Int) : ℚ),
      |(3 : ℚ) - 1|, |(2 : ℚ) - 1|)
    confidence := 0.9
    confidence_tier := classify_confidence_tier 0.9 }

/-- A concrete in-crop tesseract word for the same crop. -/
def sampleTessEntry : TessEntry :=
  { text := "yo", conf := 80, left := 1, top := 1, width := 2, height := 1 }

/-- The region the tesseract loop produces from `sampleTessEntry` at
crop origin `(0, 0)`. -/
def sampleTessRegion : OCRTextRegion :=
  { text := pyStrip "yo"
    bbox := ((1 : ℚ) + ((0 : Int) : ℚ), (1 : ℚ) + ((0 : Int) : ℚ), (2 : ℚ), (1 : ℚ))
    confidence := (80 : ℚ) / 100
    confidence_tier := classify_confidence_tier ((80 : ℚ) / 100) }

/-- C4 witness: crop `[0, 0, 4, 4]` of a 10×10 image with one in-crop
detection per engine; each returned region's bbox is the adapter bbox
offset by the crop origin and lies within the original image. -/
theorem C4_region_bbox_in_image_bounds_witness :
    ((∃ e ∈ [sampleEntry], ∃ bx bly bw bh : ℚ,
        parse_paddle_bbox e.bbox = some (bx, bly, bw, bh) ∧
        sampleRegion.bbox = (bx + ((0 : Int) : ℚ), bly + ((0 : Int) : ℚ), bw, bh)) ∧
      0 ≤ sampleRegion.bbox.1 ∧ 0 ≤ sampleRegion.bbox.2.1 ∧
      sampleRegion.bbox.1 + sampleRegion.bbox.2.2.1 ≤ ((10 : Int) : ℚ) ∧
      sampleRegion.bbox.2.1 + sampleRegion.bbox.2.2.2 ≤ ((10 : Int) : ℚ)) ∧
    ((∃ e ∈ [sampleTessEntry], sampleTessRegion.bbox =
        (e.left + ((0 : Int) : ℚ), e.top + ((0 : Int) : ℚ), e.width, e.height)) ∧
      0 ≤ sampleTessRegion.bbox.1 ∧ 0 ≤ sampleTessRegion.bbox.2.1 ∧
      sampleTessRegion.bbox.1 + sampleTessRegion.bbox.2.2.1 ≤ ((10 : Int) : ℚ) ∧
      sampleTessRegion.bbox.2.1 + sampleTessRegion.bbox.2.2.2 ≤ ((10 : Int) : ℚ)) := by
  have hmain := C4_region_bbox_in_image_bounds 0 0 4 4 10 10 0 0 4 4
    [sampleEntry] [sampleTessEntry]
    (by decide)
    (by
      intro e he bx bly bw bh hpb
      simp only [List.mem_singleton] at he
      subst he
      simp only [sampleEntry, parse_paddle_bbox, Option.some.injEq, Prod.mk.injEq] at hpb
      obtain ⟨hb1, hb2, hb3, hb4⟩ := hpb
      subst hb1
      subst hb2
      subst hb3
      subst hb4
      norm_num)
    (by
      intro e he
      simp only [List.mem_singleton] at he
      subst he
      norm_num [sampleTessEntry])
  refine ⟨hmain.1 sampleRegion ?_, hmain.2 sampleTessRegion ?_⟩
  · have h09 : ¬((0.9 : ℚ) < 0.15) := by norm_num
    simp only [perform_paddleocr_with_stats, sampleEntry, parse_paddle_bbox]
    rw [if_neg (by decide : ¬pyStrip "hi" = ""), if_neg h09]
    simp [sampleRegion]
  · have hcond : ¬(pyStrip "yo" = "" ∨ (80 : ℚ) < 15) := by
      push_neg
      exact ⟨by decide, by norm_num⟩
    simp only [tesseract_region_extract, sampleTessEntry]
    rw [if_neg hcond]
    simp [sampleTessRegion]

/-! ## Preprocessing Pipeline: the `adaptive` profile

Embeds the `adaptive` branch of `preprocess_comic_image` (server.py lines
1198-1223). The PIL primitives (grayscale conversion,
`ImageEnhance.Contrast(...).enhance(1.8)`, `MedianFilter(size=3)`) are
external library operations taken as parameters; the numpy adaptive
binarization between them (reflect padding, zero-padded double `cumsum`
integral image, 15×15 box sums, offset −10 threshold) is embedded in
full, with float32 arithmetic modelled as exact rationals. -/

/-- A single-channel image as a pixel function (values in 0..255). -/
abbrev GrayImage := ℕ → ℕ → ℚ

/-- `np.pad(..., mode="reflect")` index map: the padded index offset
`i - 7` is reflected into `[0, n)` without repeating the edge value. -/
def reflectIdx (n : ℕ) (i : ℤ) : ℕ :=
  if i < 0 then (-i).toNat
  else if i < (n : ℤ) then i.toNat
  else 2 * (n - 1) - i.toNat

/-- The image reflect-padded by `pad = window // 2 = 7` on each side. -/
def reflectPad (img : GrayImage) (Hn Wn : ℕ) (i j : ℕ) : ℚ :=
  img (reflectIdx Hn ((i : ℤ) - 7)) (reflectIdx Wn ((j : ℤ) - 7))

/-- numpy `cumsum(0)`: cumulative sum along the first index. -/
def cumsum0 (f : ℕ → ℕ → ℚ) : ℕ → ℕ → ℚ
  | 0, j => f 0 j
  | i + 1, j => cumsum0 f i j + f (i + 1) j

/-- numpy `cumsum(1)`: cumulative sum along the second index. -/
def cumsum1 (f : ℕ → ℕ → ℚ) (i : ℕ) : ℕ → ℚ
  | 0 => f i 0
  | j + 1 => cumsum1 f i j + f i (j + 1)

/-- `np.pad(..., ((1, 0), (1, 0)), constant_values=0)`. -/
def zpad (f : ℕ → ℕ → ℚ) (i j : ℕ) : ℚ :=
  if i = 0 ∨ j = 0 then 0 else f (i - 1) (j - 1)

/-- The integral image: zero-pad then `cumsum(0).cumsum(1)`. -/
def integralImage (f : ℕ → ℕ → ℚ) (i j : ℕ) : ℚ :=
  cumsum1 (cumsum0 (zpad f)) i j

/-- The 15×15 box sums
`integral[15:, 15:] - integral[:-15, 15:] - integral[15:, :-15] + integral[:-15, :-15]`. -/
def boxSums (p : ℕ → ℕ → ℚ) (i j : ℕ) : ℚ :=
  integralImage p (i + 15) (j + 15) - integralImage p i (j + 15)
    - integralImage p (i + 15) j + integralImage p i j

/-- `local_mean = sums / float(window * window)` over the padded image. -/
def adaptive_local_mean (img : GrayImage) (Hn Wn : ℕ) (i j : ℕ) : ℚ :=
  boxSums (reflectPad img Hn Wn) i j / (15 * 15)

/-- The binarization `(img_array > local_mean - 10).astype(uint8) * 255`. -/
def adaptive_binarize (img : GrayImage) (Hn Wn : ℕ) (i j : ℕ) : ℚ :=
  if img i j > adaptive_local_mean img Hn Wn i j - 10 then 255 else 0

/-- The spec's description of the local mean: the arithmetic mean of the
pixel's centered 15×15 window, taken over the reflect-padded image and
written as a direct double sum (pixel `(i, j)` sits at padded coordinates
`(i + 7, j + 7)`, so its centered window is rows `i..i+14`, columns
`j..j+14` of the padded image). -/
def window_mean_spec (img : GrayImage) (Hn Wn : ℕ) (i j : ℕ) : ℚ :=
  (∑ a ∈ Finset.range 15, ∑ b ∈ Finset.range 15,
    reflectPad img Hn Wn (i + a) (j + b)) / (15 * 15)

/-- Embeds the ordered steps of the `adaptive` branch of
`preprocess_comic_image`: grayscale → contrast ×1.8 → adaptive
binarization → 3×3 median denoise, with the PIL steps as parameters. -/
def preprocess_comic_image_adaptive
    (toGray : (ℕ → ℕ → ℚ × ℚ × ℚ) → GrayImage)
    (contrast : ℚ → GrayImage → GrayImage)
    (median3 : GrayImage → GrayImage)
    (Hn Wn : ℕ) (img : ℕ → ℕ → ℚ × ℚ × ℚ) : GrayImage :=
  median3 (adaptive_binarize (contrast 1.8 (toGray img)) Hn Wn)

theorem cumsum0_eq (f : ℕ → ℕ → ℚ) (i j : ℕ) :
    cumsum0 f i j = ∑ a ∈ Finset.range (i + 1), f a j := by
  induction i with
  | zero => simp [cumsum0]
  | succ n ih => rw [cumsum0, ih, ← Finset.sum_range_succ]

theorem cumsum1_eq (f : ℕ → ℕ → ℚ) (i j : ℕ) :
    cumsum1 f i j = ∑ b ∈ Finset.range (j + 1), f i b := by
  induction j with
  | zero => simp [cumsum1]
  | succ n ih => rw [cumsum1, ih, ← Finset.sum_range_succ]

/-- The double cumulative sum of the zero-padded array is the prefix sum:
`integral[i, j] = Σ_{a < i} Σ_{b < j} f a b`. -/
theorem integralImage_eq (f : ℕ → ℕ → ℚ) (i j : ℕ) :
    integralImage f i j = ∑ a ∈ Finset.range i, ∑ b ∈ Finset.range j, f a b := by
  unfold integralImage
  rw [cumsum1_eq]
  have hz : ∀ b, cumsum0 (zpad f) i b = ∑ a ∈ Finset.range (i + 1), zpad f a b :=
    fun b => cumsum0_eq (zpad f) i b
  simp only [hz]
  rw [Finset.sum_range_succ']
  have h0 : ∑ a ∈ Finset.range (i + 1), zpad f a 0 = 0 := by
    apply Finset.sum_eq_zero
    intro a _
    simp [zpad]
  rw [h0, add_zero]
  have h1 : ∀ b, ∑ a ∈ Finset.range (i + 1), zpad f a (b + 1) =
      ∑ a ∈ Finset.range i, f a b := by
    intro b
    rw [Finset.sum_range_succ']
    have hz0 : zpad f 0 (b + 1) = 0 := by simp [zpad]
    rw [hz0, add_zero]
    apply Finset.sum_congr rfl
    intro a _
    simp [zpad]
  simp only [h1]
  exact Finset.sum_comm

/-- The four-corner combination of integral-image values equals the sum
over the 15×15 box at `(i, j)`. -/
theorem boxSums_eq_window (p : ℕ → ℕ → ℚ) (i j : ℕ) :
    boxSums p i j =
      ∑ a ∈ Finset.range 15, ∑ b ∈ Finset.range 15, p (i + a) (j + b) := by
  unfold boxSums
  have hb : ∀ a, ∑ b ∈ Finset.range (j + 15), p a b =
      ∑ b ∈ Finset.range j, p a b + ∑ b ∈ Finset.range 15, p a (j + b) :=
    fun a => Finset.sum_range_add (fun b => p a b) j 15
  have ha : ∀ q : ℕ → ℚ, ∑ a ∈ Finset.range (i + 15), q a =
      ∑ a ∈ Finset.range i, q a + ∑ a ∈ Finset.range 15, q (i + a) :=
    fun q => Finset.sum_range_add q i 15
  simp only [integralImage_eq, hb, ha, Finset.sum_add_distrib]
  ring

/-- C8: the adaptive profile is the ordered composition grayscale →
contrast ×1.8 → local-mean adaptive binarization (window 15, offset −10)
→ 3×3 median denoise; the prefix-sum (integral image) local mean equals
the arithmetic mean of the pixel's centered 15×15 window over the
reflect-padded image; and a pixel becomes white (255) iff its value
exceeds that local mean minus 10, otherwise black (0). -/
theorem C8_adaptive_binarization :
    (∀ (toGray : (ℕ → ℕ → ℚ × ℚ × ℚ) → GrayImage)
        (contrast : ℚ → GrayImage → GrayImage)
        (median3 : GrayImage → GrayImage)
        (Hn Wn : ℕ) (img : ℕ → ℕ → ℚ × ℚ × ℚ),
      preprocess_comic_image_adaptive toGray contrast median3 Hn Wn img =
        median3 (adaptive_binarize (contrast 1.8 (toGray img)) Hn Wn)) ∧
    (∀ (g : GrayImage) (Hn Wn i j : ℕ),
      adaptive_local_mean g Hn Wn i j = window_mean_spec g Hn Wn i j) ∧
    (∀ (g : GrayImage) (Hn Wn i j : ℕ),
      adaptive_binarize g Hn Wn i j =
        if g i j > window_mean_spec g Hn Wn i j - 10 then 255 else 0) := by
  have hmean : ∀ (g : GrayImage) (Hn Wn i j : ℕ),
      adaptive_local_mean g Hn Wn i j = window_mean_spec g Hn Wn i j := by
    intro g Hn Wn i j
    unfold adaptive_local_mean window_mean_spec
    rw [boxSums_eq_window]
  refine ⟨fun _ _ _ _ _ _ => rfl, hmean, ?_⟩
  intro g Hn Wn i j
  rw [adaptive_binarize, hmean]

end BookReader
